import Mathlib

/-!
# Verification of the ktbind C++/Kotlin binding layer

A shallow embedding of the marshalling and binding engine in
`src/cpp/include/ktbind/ktbind.hpp`, together with theorems checking the
behaviour described in the specification: exception translation at adapter
boundaries, opaque-handle lifecycle, load-time binding installation, value
round-trips, data-class field marshalling, signature derivation, and
per-thread execution-context attachment.

JNI-side state (the pending exception slot, Java objects, the heap of
native instances) is made explicit; machine pointers are modelled as
natural numbers with `0` playing the role of the null handle.
-/

namespace Ktbind

/-! ## Java exceptions and the JNI pending-exception slot

`Throwable` stands for a `jthrowable`: the identity of the Java exception
object is its `id`; `message` is what `getMessage` returns for it.
`JNIEnvState` models the part of `JNIEnv` the exception machinery touches:
the pending-exception slot (`ExceptionCheck` / `ExceptionClear` / `Throw` /
`ThrowNew`).
-/

structure Throwable where
  id : Nat
  className : String
  message : String
deriving DecidableEq, Repr

structure JNIEnvState where
  pending : Option Throwable
deriving DecidableEq, Repr

/-- The native wrapper `JavaException` (ktbind.hpp:192-232): it stores a
reference to the pending Java exception object (`ex`) and its textual
message, as captured by the constructor. -/
structure JavaExceptionData where
  ex : Option Throwable
  message : String
deriving DecidableEq, Repr

/-- The `JavaException(JNIEnv*)` constructor (ktbind.hpp:193-210): if a Java
exception is pending it is stored in `ex`, the pending slot is cleared
(`ExceptionClear`), and the exception's message is extracted via its
`getMessage` method; otherwise the wrapper stays empty. Returns the
environment after construction together with the constructed wrapper. -/
def JavaException.capture (env : JNIEnvState) : JNIEnvState × JavaExceptionData :=
  match env.pending with
  | some t => ({ pending := none }, { ex := some t, message := t.message })
  | none => (env, { ex := none, message := "" })

/-- `exception_handler` (ktbind.hpp:1636-1642): converts a native exception
into a Java exception, but only when no Java exception is already pending;
`ThrowNew(java/lang/Exception, ex.what())` allocates a fresh generic
exception object carrying the native message. -/
def exception_handler (env : JNIEnvState) (what : String) : JNIEnvState :=
  match env.pending with
  | some _ => env
  | none => { pending := some { id := 0, className := "java/lang/Exception", message := what } }

/-- `env->Throw(ex.innerException())` as performed by the adapters'
`catch (JavaException&)` branch: re-installs the stored Java exception
object as the pending exception. (When the wrapper holds no object,
`Throw(nullptr)` fails and leaves the slot unchanged.) -/
def throwInner (env : JNIEnvState) (w : JavaExceptionData) : JNIEnvState :=
  match w.ex with
  | some t => { pending := some t }
  | none => env

/-- Outcome of running the body of an adapter (argument conversion followed
by the native call): a native result, an escaped `std::exception` carrying
its `what()` message, or an escaped `JavaException` wrapper. -/
inductive NativeOutcome (ρ : Type) where
  | ok (r : ρ)
  | fail (what : String)
  | javaFail (w : JavaExceptionData)

/-- `Adapter::invoke` (ktbind.hpp:1651-1674): runs the native call, converts
the result to its wire representation (a conversion that may itself throw a
`std::exception`, e.g. for `std::function` results), and translates escaped
exceptions: an escaped `JavaException` re-throws the original Java object
via `Throw`, an escaped `std::exception` goes through `exception_handler`;
in either failure case a default-constructed wire result is returned. -/
def Adapter.invoke {ρ σ : Type} [Inhabited σ] (env : JNIEnvState)
    (call : NativeOutcome ρ) (convert : ρ → Except String σ) : JNIEnvState × σ :=
  match call with
  | .ok r =>
    match convert r with
    | .ok v => (env, v)
    | .error what => (exception_handler env what, default)
  | .fail what => (exception_handler env what, default)
  | .javaFail w => (throwInner env w, default)

/-! ## Opaque-handle object lifecycle

A Java holder object stores the native instance pointer in its
`nativePointer` field; `0` is the null handle. The heap of live native
instances is the list of currently allocated pointers.
-/

structure Holder where
  nativePointer : Nat
deriving DecidableEq, Repr

structure NativeHeap where
  live : List Nat
deriving DecidableEq, Repr

/-- `delete ptr`: destroys the instance `ptr` points to; deleting the null
pointer is a no-op. -/
def deleteNative (heap : NativeHeap) (p : Nat) : NativeHeap :=
  if p = 0 then heap else { live := heap.live.erase p }

/-- `DestroyObjectAdapter::invoke` (ktbind.hpp:1769-1789): fetches the
stored native pointer, `delete`s the native instance, and overwrites the
stored field with the null handle. -/
def DestroyObjectAdapter.invoke (heap : NativeHeap) (obj : Holder) : NativeHeap × Holder :=
  let p := obj.nativePointer
  (deleteNative heap p, { nativePointer := 0 })

/-- The "disposed object" message thrown by `MemberAdapter::invoke`
(ktbind.hpp:1695). -/
def disposedMessage (className : String) : String :=
  "Object " ++ className ++ " has already been disposed of."

/-- Result of an instance-method adapter invocation: the environment after
the call, the wire result, and whether the native pointer was dereferenced. -/
structure MemberCallResult (σ : Type) where
  env : JNIEnvState
  result : σ
  dereferenced : Bool
deriving Repr

/-- `MemberAdapter::invoke` (ktbind.hpp:1686-1716): fetches the stored
native pointer from the holder; if it is null a `std::logic_error` with the
"disposed object" message is thrown, caught by the outermost frame, and
translated via `exception_handler`; otherwise the member function `body` is
invoked on the pointed-to instance. -/
def MemberAdapter.invoke {σ : Type} [Inhabited σ] (env : JNIEnvState)
    (className : String) (obj : Holder) (body : Nat → σ) : MemberCallResult σ :=
  if obj.nativePointer = 0 then
    { env := exception_handler env (disposedMessage className)
      result := default
      dereferenced := false }
  else
    { env := env, result := body obj.nativePointer, dereferenced := true }

/-! ## Marshalling a `std::function` back to Java -/

/-- The message of the `std::runtime_error` thrown by
`ArgType<std::function<R(Args...)>>::java_value` (ktbind.hpp:1428-1430). -/
def functionJavaValueMessage : String :=
  "C++ functions returning a function object to Java/Kotlin are not supported."

/-- `ArgType<std::function<R(Args...)>>::java_value` (ktbind.hpp:1428-1430):
unconditionally throws, for every function value. -/
def functionArgJavaValue {φ : Type} (_f : φ) : Except String Unit :=
  .error functionJavaValueMessage

/-! ## The load entry point `java_initialization_impl`

`JNI_OnLoad` delegates to `java_initialization_impl` (ktbind.hpp:1968-2045),
which walks the `FunctionBindings` registry, resolving each registered class
and calling `RegisterNatives` on its bindings, then walks the
`FieldBindings` registry, checking that every registered field exists with
the exact name and signature. The JNI side is abstracted by a `JniLoadEnv`
oracle saying which classes resolve, what each `RegisterNatives` call
returns, and which fields exist. The natives actually installed by
`RegisterNatives` calls are tracked explicitly, so that the atomicity of
the load can be stated.
-/

/-- `FunctionBinding` (ktbind.hpp:1801-1807); the entry point is an opaque
identifier. -/
structure FunctionBinding where
  name : String
  signature : String
  is_member : Bool
  entryPoint : Nat
deriving DecidableEq, Repr

/-- The name/signature data of a `FieldBinding` (ktbind.hpp:1165-1174) that
the load-time check consults. -/
structure FieldSpec where
  name : String
  signature : String
deriving DecidableEq, Repr

/-- Outcomes of the JNI calls issued by `java_initialization_impl`:
which classes `FindClass` resolves, the return code of `RegisterNatives`
per class, whether an exception is pending after the registration loop,
and which `GetFieldID` lookups succeed. -/
structure JniLoadEnv where
  getEnvRc : Int
  resolvesClass : String → Bool
  registerNativesRc : String → Int
  pendingAfterRegistration : Bool
  hasField : String → FieldSpec → Bool

def JNI_OK : Int := 0
def JNI_ERR : Int := -1
def JNI_VERSION_1_6 : Int := 65542

/-- All function bindings of a registry, tagged with their class name. -/
def allNatives (fnRegs : List (String × List FunctionBinding)) :
    List (String × FunctionBinding) :=
  fnRegs.flatMap fun cb => cb.2.map fun b => (cb.1, b)

/-- The function-binding loop of `java_initialization_impl`
(ktbind.hpp:1986-2009): for each registered class, resolve it (returning
`JNI_ERR` if `FindClass` fails) and call `RegisterNatives` on all its
bindings (returning the JNI error code if that fails). Returns `none` when
the loop completes, or `some rc` on early exit, together with the natives
installed so far; nothing installed earlier is ever removed. -/
def registerClasses (jni : JniLoadEnv) :
    List (String × List FunctionBinding) → List (String × FunctionBinding) →
    Option Int × List (String × FunctionBinding)
  | [], installed => (none, installed)
  | (cls, bs) :: rest, installed =>
    if jni.resolvesClass cls then
      if jni.registerNativesRc cls = JNI_OK then
        registerClasses jni rest (installed ++ bs.map fun b => (cls, b))
      else
        (some (jni.registerNativesRc cls), installed)
    else
      (some JNI_ERR, installed)

/-- The field-binding loop of `java_initialization_impl`
(ktbind.hpp:2016-2038): for each registered data class, resolve it and look
up every registered field by name and signature; any failure yields
`JNI_ERR`. -/
def checkFields (jni : JniLoadEnv) : List (String × List FieldSpec) → Option Int
  | [] => none
  | (cls, fs) :: rest =>
    if jni.resolvesClass cls then
      if fs.all fun f => jni.hasField cls f then
        checkFields jni rest
      else
        some JNI_ERR
    else
      some JNI_ERR

/-- `java_initialization_impl` (ktbind.hpp:1968-2045): obtain the JNI
environment (propagating the `GetEnv` error code on failure), run the
function-binding loop, fail with `JNI_ERR` if an exception is pending, run
the field-binding check, and return `JNI_VERSION_1_6` on success. The
second component is the set of natives left installed by `RegisterNatives`
when the call returns. -/
def java_initialization_impl (jni : JniLoadEnv)
    (fnRegs : List (String × List FunctionBinding))
    (fldRegs : List (String × List FieldSpec)) :
    Int × List (String × FunctionBinding) :=
  if jni.getEnvRc = JNI_OK then
    match registerClasses jni fnRegs [] with
    | (some rc, installed) => (rc, installed)
    | (none, installed) =>
      if jni.pendingAfterRegistration then
        (JNI_ERR, installed)
      else
        match checkFields jni fldRegs with
        | some rc => (rc, installed)
        | none => (JNI_VERSION_1_6, installed)
  else
    (jni.getEnvRc, [])

/-! ## Per-thread execution context (`Environment`, ktbind.hpp:425-487)

Each thread owns a thread-local `Environment`; `getEnv` lazily obtains a
`JNIEnv*`, attaching the thread to the JVM when the host reports it
detached, and records in `_attached` whether this layer performed the
attachment. The destructor, run at thread termination, detaches the thread
only when `_attached` is set. The host side of `GetEnv` /
`AttachCurrentThread` is abstracted by a per-call outcome.
-/

/-- The fields of `Environment`: whether the JVM handle `_vm` is set, the
cached `_env` pointer, and the `_attached` flag. -/
structure EnvironmentState where
  vmLoaded : Bool
  env : Option Nat
  attached : Bool
deriving DecidableEq, Repr

/-- Host-side outcome of the `GetEnv` / `AttachCurrentThread` sequence
inside `Environment::getEnv`: the thread is already attached by the host
(`GetEnv` returns `JNI_OK`), or it is detached and `AttachCurrentThread`
succeeds or fails, or `GetEnv` reports an unsupported version. -/
inductive GetEnvOutcome where
  | alreadyAttached (e : Nat)
  | detachedAttachOk (e : Nat)
  | detachedAttachFail
  | badVersion
deriving DecidableEq, Repr

/-- `Environment::getEnv` (ktbind.hpp:444-469): returns the cached
environment if present; otherwise consults the host: if the thread is
already attached the environment is cached without setting `_attached`; if
it is detached and attaching succeeds, `_attached` is set; on failure a
null environment is returned. -/
def Environment.getEnv (s : EnvironmentState) (host : GetEnvOutcome) :
    EnvironmentState × Option Nat :=
  match s.env with
  | some e => (s, some e)
  | none =>
    match host with
    | .alreadyAttached e => ({ s with env := some e }, some e)
    | .detachedAttachOk e => ({ s with env := some e, attached := true }, some e)
    | .detachedAttachFail => (s, none)
    | .badVersion => (s, none)

/-- `Environment::setEnv` (ktbind.hpp:438-442): caches a host-provided
environment (used on the `JNI_OnLoad` thread); `_attached` is not set. -/
def Environment.setEnv (s : EnvironmentState) (e : Nat) : EnvironmentState :=
  { s with env := some e }

/-- `Environment::~Environment` (ktbind.hpp:471-481): the destructor
detaches the current thread exactly when an environment was obtained, the
JVM is still loaded, and `_attached` is set. -/
def Environment.dtorDetaches (s : EnvironmentState) : Bool :=
  s.env.isSome && s.vmLoaded && s.attached

/-- Operations a thread may perform on its `Environment` during its
lifetime. -/
inductive EnvOp where
  | getEnvOp (host : GetEnvOutcome)
  | setEnvOp (e : Nat)
deriving DecidableEq, Repr

def Environment.step (s : EnvironmentState) (op : EnvOp) : EnvironmentState :=
  match op with
  | .getEnvOp host => (Environment.getEnv s host).1
  | .setEnvOp e => Environment.setEnv s e

def Environment.run (s : EnvironmentState) (ops : List EnvOp) : EnvironmentState :=
  ops.foldl Environment.step s

/-- The state of a freshly started thread's `Environment` while the JVM is
loaded: no cached environment, not attached by this layer. -/
def initialEnvState : EnvironmentState :=
  { vmLoaded := true, env := none, attached := false }

/-- Whether a single operation makes this layer attach the thread: only a
`getEnv` call that finds no cached environment, a host-detached thread, and
a successful `AttachCurrentThread`. -/
def stepSelfAttaches (s : EnvironmentState) (op : EnvOp) : Bool :=
  match op with
  | .getEnvOp (.detachedAttachOk _) => s.env.isNone
  | _ => false

/-- Whether any operation of the trace makes this layer attach the thread. -/
def selfAttachOccurred : EnvironmentState → List EnvOp → Bool
  | _, [] => false
  | s, op :: rest =>
    stepSelfAttaches s op || selfAttachOccurred (Environment.step s op) rest

/-! ## The compile-time type grammar and signature derivation

`CppType` is the grammar of native types appearing in exposed signatures
that the claims quantify over. `typeSig` is `ArgType<T>::type_sig` for each
of them, on an LP64 platform (where `int` is 32-bit and `long`,
`long long` are 64-bit, as dispatched by `IntegerArgType`,
ktbind.hpp:833-841). `constRefTo` / `refTo` model `const T&` / `T&`
parameter types, which `std::decay_t` strips before the `ArgType` lookup.
-/

inductive CppType where
  | boolT
  | charT
  | scharT
  | ucharT
  | uint16T
  | shortT
  | intT
  | uintT
  | longT
  | ulongT
  | longlongT
  | ulonglongT
  | floatT
  | doubleT
  | voidT
  | stringT
  | objectT
  | vectorOf (t : CppType)
  | constRefTo (t : CppType)
  | refTo (t : CppType)
deriving DecidableEq, Repr

/-- `std::decay_t`, as applied by the `Function` specializations for
function pointers and member function pointers (ktbind.hpp:1337-1359):
strips references and cv-qualification. -/
def decay : CppType → CppType
  | .constRefTo t => decay t
  | .refTo t => decay t
  | t => t

/-- Whether `std::vector<T>` has a `FundamentalArgArrayType` specialization
(ktbind.hpp:1099-1111), i.e. whether `T` is one of the fixed-width numeric
primitives given a flat Java array representation. (`bool` is not among
them: `std::vector<bool>` takes the generic `ListArgType` path.) -/
def isFundamentalArrayElement : CppType → Bool
  | .charT | .scharT | .ucharT | .uint16T | .shortT
  | .intT | .uintT | .longT | .ulongT | .longlongT | .ulonglongT
  | .floatT | .doubleT => true
  | _ => false

/-- `ArgType<T>::type_sig` for each type of the grammar: single-character
codes for primitives (ktbind.hpp:613-926), `L<ClassPath>;` for object
types, `[` followed by the element code for flat primitive arrays
(ktbind.hpp:1051-1061), and `Ljava/util/List;` for generic sequences
(ktbind.hpp:1040-1042 with `CompositeArgType`, ktbind.hpp:961-972). -/
def typeSig : CppType → String
  | .boolT => "Z"
  | .charT => "B"
  | .scharT => "B"
  | .ucharT => "B"
  | .uint16T => "C"
  | .shortT => "S"
  | .intT => "I"
  | .uintT => "I"
  | .longT => "J"
  | .ulongT => "J"
  | .longlongT => "J"
  | .ulonglongT => "J"
  | .floatT => "F"
  | .doubleT => "D"
  | .voidT => "V"
  | .stringT => "Ljava/lang/String;"
  | .objectT => "Ljava/lang/Object;"
  | .vectorOf t => if isFundamentalArrayElement t then "[" ++ typeSig t else "Ljava/util/List;"
  | .constRefTo t => typeSig t
  | .refTo t => typeSig t

/-- The parameter part of a callable signature: the concatenation of the
parameter type signatures (`param_sig` in `Function<R(Args...)>`,
ktbind.hpp:1312). -/
def paramSig (args : List CppType) : String :=
  String.join (args.map typeSig)

/-- `Function<R(Args...)>::signature` (ktbind.hpp:1284-1332): the canonical
`(ParamTypes)ReturnType` form built by `callable_sig`. -/
def functionSignature (r : CppType) (args : List CppType) : String :=
  "(" ++ paramSig args ++ ")" ++ typeSig r

/-- `Function<R(*)(Args...)>::signature` (ktbind.hpp:1337-1341): the
signature of a free function pointer, delegating to
`Function<R(std::decay_t<Args>...)>`. -/
def freeFunctionSignature (r : CppType) (args : List CppType) : String :=
  functionSignature r (args.map decay)

/-- `Function<R(T::*)(Args...)>::signature` (ktbind.hpp:1346-1350): the
signature of an instance method; the receiver type `T` does not
participate. -/
def memberFunctionSignature (_receiver : CppType) (r : CppType) (args : List CppType) : String :=
  functionSignature r (args.map decay)

/-- `Function<R(T::*)(Args...) const>::signature` (ktbind.hpp:1355-1359):
the signature of a const-qualified instance method. -/
def constMemberFunctionSignature (_receiver : CppType) (r : CppType) (args : List CppType) : String :=
  functionSignature r (args.map decay)

/-! ## Boundary-crossing call traces for sequence conversion

To state how many JNI calls each direction of a `std::vector<T>`
conversion performs, the conversions' JNI interactions are recorded as
explicit call lists, read off from `FundamentalArgArrayType`
(ktbind.hpp:1051-1091) and `ListArgType` (ktbind.hpp:1437-1466).
-/

inductive JniCall where
  | newPrimitiveArray (len : Nat)
  | setArrayRegion (len : Nat)
  | getArrayRegion (len : Nat)
  | getArrayLength
  | newObject (cls : String)
  | callMethod (name : String)
  | boxValue
  | unboxValue
deriving DecidableEq, Repr

/-- The JNI calls performed by the outbound conversion of a
`std::vector<T>` of length `len`: `FundamentalArgArrayType::java_value`
performs `NewXxxArray` plus one contiguous `SetXxxArrayRegion`
(ktbind.hpp:1088-1090 with e.g. ktbind.hpp:785-793);
`ListArgType::java_value` constructs an `ArrayList` and performs one
`java_box` plus one virtual `add` call per element (ktbind.hpp:1454-1466). -/
def vectorJavaValueCalls (t : CppType) (len : Nat) : List JniCall :=
  if isFundamentalArrayElement t then
    [JniCall.newPrimitiveArray len, JniCall.setArrayRegion len]
  else
    JniCall.newObject "java/util/ArrayList" ::
      (List.replicate len [JniCall.boxValue, JniCall.callMethod "add"]).flatten

/-- The JNI calls performed by the inbound conversion of a Java sequence of
length `len` into a `std::vector<T>`:
`FundamentalArgArrayType::native_value` performs `GetArrayLength` plus one
contiguous `GetXxxArrayRegion` (ktbind.hpp:1081-1086);
`ListArgType::native_value` performs a `size` call and then one virtual
`get` call plus one `java_unbox` per element (ktbind.hpp:1437-1452). -/
def vectorNativeValueCalls (t : CppType) (len : Nat) : List JniCall :=
  if isFundamentalArrayElement t then
    [JniCall.getArrayLength, JniCall.getArrayRegion len]
  else
    JniCall.callMethod "size" ::
      (List.replicate len [JniCall.callMethod "get", JniCall.unboxValue]).flatten

/-! ## Value conversions

The two directions of each `ArgType` specialization, with Java-side values
made explicit:

* primitives convert by `static_cast` (`FundamentalArgType`,
  ktbind.hpp:573-579);
* a `std::string` is a list of UTF-8 code units; `java_value` passes
  `value.data()` — a NUL-terminated C string — to `NewStringUTF`, and
  `native_value` copies `GetStringUTFLength` bytes back out;
* a Java `List` is a list of wire values, built by appending
  (`ListArgType`);
* a Java `Set` is its insertion-ordered element list with duplicate `add`s
  ignored (`SetArgType`);
* a `std::set<int>` is its sorted element list, built by ordered insertion;
  a `std::unordered_set` keeps elements in an unspecified order, modelled
  as first-insertion order;
* a Java `Map` is an insertion-ordered association list where `put`
  replaces the value of an existing key (`MapArgType`); `std::map`
  `operator[]` assigns through ordered insert-or-update.
-/

/-- `ArgType<bool>` outbound: `static_cast<jboolean>` (`jboolean` is an
8-bit integer holding 0 or 1). -/
def boolJavaValue (b : Bool) : Int :=
  if b then 1 else 0

/-- `ArgType<bool>` inbound: `static_cast<bool>` of a `jboolean` (nonzero
means true). -/
def boolNativeValue (j : Int) : Bool :=
  j != 0

/-- `ArgType<int>` outbound: `static_cast<jint>`; both types are 32-bit
two's-complement integers, so the value is preserved. -/
def intJavaValue (x : Int) : Int := x

/-- `ArgType<int>` inbound: `static_cast<int>` of a `jint`. -/
def intNativeValue (j : Int) : Int := j

/-- `ArgType<std::string>::java_value` (ktbind.hpp:1031-1033):
`NewStringUTF(value.data())` reads the NUL-terminated character buffer, so
the constructed Java string holds the bytes up to the first NUL. -/
def stringJavaValue (s : List Nat) : List Nat :=
  s.takeWhile fun c => c ≠ 0

/-- `ArgType<std::string>::native_value` (ktbind.hpp:1020-1029): reads
`GetStringUTFLength` and copies that many bytes when positive, returning
the empty string otherwise. -/
def stringNativeValue (j : List Nat) : List Nat :=
  if 0 < j.length then j else []

/-- `ListArgType::java_value` (ktbind.hpp:1454-1466): constructs an
`ArrayList` and appends the outbound conversion of each element in
iteration order. -/
def listJavaValue {α β : Type} (elemJava : α → β) (l : List α) : List β :=
  l.map elemJava

/-- `ListArgType::native_value` (ktbind.hpp:1437-1452): reads the size and
converts the element at each index in order, appending with `push_back`. -/
def listNativeValue {α β : Type} (elemNative : β → α) (j : List β) : List α :=
  j.map elemNative

/-- `FundamentalArgArrayType::java_value` (ktbind.hpp:1088-1090): one
contiguous copy of the vector's buffer into a fresh Java primitive array. -/
def primitiveArrayJavaValue (v : List Int) : List Int := v

/-- `FundamentalArgArrayType::native_value` (ktbind.hpp:1081-1086): one
contiguous copy of the Java primitive array into a fresh vector. -/
def primitiveArrayNativeValue (j : List Int) : List Int := j

/-- `java.util.Set.add` on the Java side (`SetArgType::java_value`,
ktbind.hpp:1493-1507): adding an element already present leaves the set
unchanged; otherwise it is appended to the iteration order. -/
def javaSetAdd (l : List Int) (a : Int) : List Int :=
  if a ∈ l then l else l ++ [a]

/-- `SetArgType::java_value`: iterate the native set and `add` each element
to a freshly constructed Java set. -/
def setJavaValue (s : List Int) : List Int :=
  s.foldl javaSetAdd []

/-- `std::set<int>::insert`: ordered insertion into the sorted element
list, ignoring an element already present. -/
def stdSetInsert (a : Int) : List Int → List Int
  | [] => [a]
  | b :: t =>
    if a < b then a :: b :: t
    else if a = b then b :: t
    else b :: stdSetInsert a t

/-- `SetArgType::native_value` for `std::set` (ktbind.hpp:1469-1490):
iterate the Java set with `hasNext`/`next` and insert each converted
element into the native set. -/
def orderedSetNativeValue (j : List Int) : List Int :=
  j.foldl (fun acc a => stdSetInsert a acc) []

/-- `std::unordered_set<int>::insert` in first-insertion order: ignore an
element already present, otherwise append. -/
def hashSetInsert (acc : List Int) (a : Int) : List Int :=
  if a ∈ acc then acc else acc ++ [a]

/-- `SetArgType::native_value` for `std::unordered_set`: same iteration,
hash-based insertion. -/
def unorderedSetNativeValue (j : List Int) : List Int :=
  j.foldl hashSetInsert []

/-- `java.util.Map.put` on the Java side (`MapArgType::java_value`,
ktbind.hpp:1546-1562): replaces the value of an existing key, otherwise
appends the entry to the iteration order. -/
def javaMapPut {β : Type} (l : List (Int × β)) (k : Int) (v : β) : List (Int × β) :=
  if l.any fun p => p.1 = k then
    l.map fun p => if p.1 = k then (k, v) else p
  else
    l ++ [(k, v)]

/-- `MapArgType::java_value`: iterate the native map and `put` each
key/value pair, converting the value outbound, into a freshly constructed
Java map. -/
def mapJavaValue {α β : Type} (valueJava : α → β) (m : List (Int × α)) : List (Int × β) :=
  m.foldl (fun acc p => javaMapPut acc p.1 (valueJava p.2)) []

/-- `std::map<int, V>::operator[] = v`: ordered insert-or-update on the
sorted entry list. -/
def stdMapAssign {α : Type} (k : Int) (v : α) : List (Int × α) → List (Int × α)
  | [] => [(k, v)]
  | (k1, v1) :: t =>
    if k < k1 then (k, v) :: (k1, v1) :: t
    else if k = k1 then (k, v) :: t
    else (k1, v1) :: stdMapAssign k v t

/-- `MapArgType::native_value` for `std::map` (ktbind.hpp:1509-1544):
iterate the Java map's entry set and assign each converted key/value pair
into the native map. -/
def orderedMapNativeValue {α β : Type} (valueNative : β → α) (j : List (Int × β)) :
    List (Int × α) :=
  j.foldl (fun acc p => stdMapAssign p.1 (valueNative p.2) acc) []

/-! ## Data-class field marshalling (C6)

A data object, on either side, is a valuation of field names; converting a
composite-by-value type walks the registered `FieldBindings` list:
`DataClassArgType::java_value` (ktbind.hpp:1204-1217) allocates the Java
object with `AllocObject` — all fields at their JVM defaults — then sets
each registered field from the native member; `native_value`
(ktbind.hpp:1192-1202) default-constructs the native object — all members
at their declared defaults — then assigns each registered field from the
Java object. The getter/setter closures registered by `data_class::field`
(ktbind.hpp:1882-1901) each touch exactly one member.
-/

/-- `DataClassArgType::java_value`: starting from the `AllocObject` default
valuation, set each registered field, in registration order, to the native
object's value for it. -/
def dataClassJavaValue (bindings : List String) (javaDefault : String → Int)
    (native : String → Int) : String → Int :=
  bindings.foldl (fun obj b => Function.update obj b (native b)) javaDefault

/-- `DataClassArgType::native_value`: starting from the default-constructed
native object, set each registered field, in registration order, to the
Java object's value for it. -/
def dataClassNativeValue (bindings : List String) (nativeDefault : String → Int)
    (javaObj : String → Int) : String → Int :=
  bindings.foldl (fun res b => Function.update res b (javaObj b)) nativeDefault

/-! ## Helper lemmas about the collection-insertion folds -/

theorem stdSetInsert_of_forall_lt (a : Int) (l : List Int) (h : ∀ b ∈ l, b < a) :
    stdSetInsert a l = l ++ [a] := by
  induction l with
  | nil => rfl
  | cons b t ih =>
    have hba : b < a := h b (List.mem_cons_self b t)
    have h1 : ¬ a < b := not_lt.mpr hba.le
    have h2 : ¬ a = b := ne_of_gt hba
    simp only [stdSetInsert, if_neg h1, if_neg h2, List.cons_append, List.cons.injEq, true_and]
    exact ih fun b hb => h b (List.mem_cons_of_mem _ hb)

theorem foldl_stdSetInsert_sorted (l : List Int) :
    ∀ acc : List Int, (acc ++ l).Pairwise (· < ·) →
      l.foldl (fun acc a => stdSetInsert a acc) acc = acc ++ l := by
  induction l with
  | nil => intro acc _; simp
  | cons a t ih =>
    intro acc h
    have hlt : ∀ b ∈ acc, b < a := by
      intro b hb
      exact ((List.pairwise_append.mp h).2.2) b hb a (List.mem_cons_self a t)
    have hrest : ((acc ++ [a]) ++ t).Pairwise (· < ·) := by
      rw [List.append_assoc, List.singleton_append]
      exact h
    calc (a :: t).foldl (fun acc a => stdSetInsert a acc) acc
        = t.foldl (fun acc a => stdSetInsert a acc) (stdSetInsert a acc) := rfl
      _ = t.foldl (fun acc a => stdSetInsert a acc) (acc ++ [a]) := by
            rw [stdSetInsert_of_forall_lt a acc hlt]
      _ = (acc ++ [a]) ++ t := ih (acc ++ [a]) hrest
      _ = acc ++ a :: t := by rw [List.append_assoc, List.singleton_append]

theorem foldl_hashSetInsert_nodup (l : List Int) :
    ∀ acc : List Int, (acc ++ l).Nodup →
      l.foldl hashSetInsert acc = acc ++ l := by
  induction l with
  | nil => intro acc _; simp
  | cons a t ih =>
    intro acc h
    have hnot : a ∉ acc := by
      intro ha
      exact (List.disjoint_of_nodup_append h) ha (List.mem_cons_self a t)
    have hrest : ((acc ++ [a]) ++ t).Nodup := by
      rw [List.append_assoc, List.singleton_append]
      exact h
    calc (a :: t).foldl hashSetInsert acc
        = t.foldl hashSetInsert (hashSetInsert acc a) := rfl
      _ = t.foldl hashSetInsert (acc ++ [a]) := by
            simp only [hashSetInsert, if_neg hnot]
      _ = (acc ++ [a]) ++ t := ih (acc ++ [a]) hrest
      _ = acc ++ a :: t := by rw [List.append_assoc, List.singleton_append]

theorem javaSetAdd_eq_hashSetInsert : javaSetAdd = hashSetInsert := rfl

theorem setJavaValue_of_nodup (s : List Int) (h : s.Nodup) : setJavaValue s = s := by
  have := foldl_hashSetInsert_nodup s [] (by simpa using h)
  simpa [setJavaValue, javaSetAdd_eq_hashSetInsert] using this

theorem stdMapAssign_of_forall_lt {α : Type} (k : Int) (v : α) (l : List (Int × α))
    (h : ∀ p ∈ l, p.1 < k) : stdMapAssign k v l = l ++ [(k, v)] := by
  induction l with
  | nil => rfl
  | cons p t ih =>
    obtain ⟨k1, v1⟩ := p
    have hlt : k1 < k := h (k1, v1) (List.mem_cons_self _ t)
    have h1 : ¬ k < k1 := not_lt.mpr hlt.le
    have h2 : ¬ k = k1 := ne_of_gt hlt
    simp only [stdMapAssign, if_neg h1, if_neg h2, List.cons_append, List.cons.injEq, true_and]
    exact ih fun q hq => h q (List.mem_cons_of_mem _ hq)

theorem foldl_stdMapAssign_sorted {α : Type} (l : List (Int × α)) :
    ∀ acc : List (Int × α), ((acc ++ l).map Prod.fst).Pairwise (· < ·) →
      l.foldl (fun acc p => stdMapAssign p.1 p.2 acc) acc = acc ++ l := by
  induction l with
  | nil => intro acc _; simp
  | cons p t ih =>
    intro acc h
    rw [List.map_append] at h
    have hlt : ∀ q ∈ acc, q.1 < p.1 := by
      intro q hq
      exact ((List.pairwise_append.mp h).2.2) q.1 (List.mem_map_of_mem Prod.fst hq)
        p.1 (by simp)
    have hrest : (((acc ++ [p]) ++ t).map Prod.fst).Pairwise (· < ·) := by
      rw [List.append_assoc, List.singleton_append, List.map_append]
      exact h
    calc (p :: t).foldl (fun acc p => stdMapAssign p.1 p.2 acc) acc
        = t.foldl (fun acc p => stdMapAssign p.1 p.2 acc) (stdMapAssign p.1 p.2 acc) := rfl
      _ = t.foldl (fun acc p => stdMapAssign p.1 p.2 acc) (acc ++ [p]) := by
            rw [stdMapAssign_of_forall_lt p.1 p.2 acc hlt]
      _ = (acc ++ [p]) ++ t := ih (acc ++ [p]) hrest
      _ = acc ++ p :: t := by rw [List.append_assoc, List.singleton_append]

theorem javaMapPut_of_not_mem {β : Type} (l : List (Int × β)) (k : Int) (v : β)
    (h : k ∉ l.map Prod.fst) : javaMapPut l k v = l ++ [(k, v)] := by
  have hany : (l.any fun p => p.1 = k) = false := by
    simp only [List.any_eq_false, decide_eq_true_eq]
    intro p hp hpk
    exact h (hpk ▸ List.mem_map_of_mem Prod.fst hp)
  simp [javaMapPut, hany]

theorem foldl_javaMapPut_nodup {β : Type} (l : List (Int × β)) :
    ∀ acc : List (Int × β), ((acc ++ l).map Prod.fst).Nodup →
      l.foldl (fun acc p => javaMapPut acc p.1 p.2) acc = acc ++ l := by
  induction l with
  | nil => intro acc _; simp
  | cons p t ih =>
    intro acc h
    rw [List.map_append] at h
    have hnot : p.1 ∉ acc.map Prod.fst := by
      intro hp
      exact (List.disjoint_of_nodup_append h) hp (by simp)
    have hrest : (((acc ++ [p]) ++ t).map Prod.fst).Nodup := by
      rw [List.append_assoc, List.singleton_append, List.map_append]
      exact h
    calc (p :: t).foldl (fun acc p => javaMapPut acc p.1 p.2) acc
        = t.foldl (fun acc p => javaMapPut acc p.1 p.2) (javaMapPut acc p.1 p.2) := rfl
      _ = t.foldl (fun acc p => javaMapPut acc p.1 p.2) (acc ++ [p]) := by
            rw [javaMapPut_of_not_mem acc p.1 p.2 hnot]
      _ = (acc ++ [p]) ++ t := ih (acc ++ [p]) hrest
      _ = acc ++ p :: t := by rw [List.append_assoc, List.singleton_append]

/-- Writing the registered fields in order determines each field of the
result: a registered field holds the written value, any other field keeps
its starting value. -/
theorem foldl_update_apply (bs : List String) :
    ∀ (start : String → Int) (src : String → Int) (f : String),
      (bs.foldl (fun o b => Function.update o b (src b)) start) f
        = if f ∈ bs then src f else start f := by
  induction bs with
  | nil => intro start src f; simp
  | cons b t ih =>
    intro start src f
    by_cases hft : f ∈ t
    · simp [List.foldl_cons, ih, hft]
    · by_cases hfb : f = b
      · subst hfb
        simp [List.foldl_cons, ih, hft, Function.update_apply]
      · simp [List.foldl_cons, ih, hft, Function.update_apply, hfb]

/-! ## Claim theorems -/

/-- **C2**: disposal is idempotent and gating. The `close` adapter nulls the
stored handle; a second disposal of the same holder frees nothing and
raises no error; the first disposal of a live handle destroys the native
instance; and an instance-method adapter invoked on a holder with a null
handle raises the "disposed object" error without dereferencing the
pointer. -/
theorem dispose_idempotent_and_disposed_guard
    (heap : NativeHeap) (obj : Holder) (env : JNIEnvState) (className : String)
    (body : Nat → Int) :
    (DestroyObjectAdapter.invoke heap obj).2.nativePointer = 0
    ∧ DestroyObjectAdapter.invoke (DestroyObjectAdapter.invoke heap obj).1
        (DestroyObjectAdapter.invoke heap obj).2
        = ((DestroyObjectAdapter.invoke heap obj).1, (DestroyObjectAdapter.invoke heap obj).2)
    ∧ (obj.nativePointer ≠ 0 →
        (DestroyObjectAdapter.invoke heap obj).1.live = heap.live.erase obj.nativePointer)
    ∧ (obj.nativePointer = 0 →
        DestroyObjectAdapter.invoke heap obj = (heap, { nativePointer := 0 }))
    ∧ (obj.nativePointer = 0 →
        MemberAdapter.invoke env className obj body
          = { env := exception_handler env (disposedMessage className)
              result := default
              dereferenced := false })
    ∧ (obj.nativePointer = 0 → env.pending = none →
        (MemberAdapter.invoke env className obj body).env.pending
          = some { id := 0, className := "java/lang/Exception"
                   message := disposedMessage className }
          ∧ (MemberAdapter.invoke env className obj body).dereferenced = false) := by
  refine ⟨rfl, ?_, ?_, ?_, ?_, ?_⟩
  · simp [DestroyObjectAdapter.invoke, deleteNative]
  · intro h
    simp [DestroyObjectAdapter.invoke, deleteNative, h]
  · intro h
    simp [DestroyObjectAdapter.invoke, deleteNative, h]
  · intro h
    simp [MemberAdapter.invoke, h]
  · intro h hp
    constructor
    · simp [MemberAdapter.invoke, h, exception_handler, hp]
    · simp [MemberAdapter.invoke, h]

/-- Witness for C2 at a live holder (pointer 5) and a disposed holder. -/
theorem dispose_idempotent_and_disposed_guard_witness :
    (DestroyObjectAdapter.invoke { live := [5] } { nativePointer := 5 }).1.live
        = List.erase [5] 5
    ∧ (MemberAdapter.invoke { pending := none } "com/kheiron/ktbind/Sample"
          { nativePointer := 0 } (fun p => (p : Int))).env.pending
        = some { id := 0, className := "java/lang/Exception"
                 message := disposedMessage "com/kheiron/ktbind/Sample" } :=
  ⟨(dispose_idempotent_and_disposed_guard { live := [5] } { nativePointer := 5 }
      { pending := none } "com/kheiron/ktbind/Sample" (fun p => (p : Int))).2.2.1
      (by decide),
   ((dispose_idempotent_and_disposed_guard { live := [5] } { nativePointer := 0 }
      { pending := none } "com/kheiron/ktbind/Sample" (fun p => (p : Int))).2.2.2.2.2
      rfl rfl).1⟩

/-- **C3**: capturing a pending Java exception stores the exception object
and its message in the `JavaException` wrapper and clears the pending slot;
when the wrapper escapes uncaught back to an adapter boundary, the adapter
re-throws the stored original exception object itself. -/
theorem java_exception_capture_rethrows_original
    (env env2 : JNIEnvState) (t : Throwable) (convert : Unit → Except String Int)
    (h : env.pending = some t) :
    (JavaException.capture env).1.pending = none
    ∧ (JavaException.capture env).2.ex = some t
    ∧ (JavaException.capture env).2.message = t.message
    ∧ (Adapter.invoke env2 (NativeOutcome.javaFail (JavaException.capture env).2)
        convert).1.pending = some t := by
  simp [JavaException.capture, h, Adapter.invoke, throwInner]

/-- Witness for C3: a runtime exception with message "boom" survives
capture and re-throw with its identity intact. -/
theorem java_exception_capture_rethrows_original_witness :
    (Adapter.invoke { pending := none }
        (NativeOutcome.javaFail
          (JavaException.capture
            { pending := some { id := 3, className := "java/lang/RuntimeException"
                                message := "boom" } }).2)
        (fun _ : Unit => Except.ok (0 : Int))).1.pending
      = some { id := 3, className := "java/lang/RuntimeException", message := "boom" } :=
  (java_exception_capture_rethrows_original
    { pending := some { id := 3, className := "java/lang/RuntimeException", message := "boom" } }
    { pending := none }
    { id := 3, className := "java/lang/RuntimeException", message := "boom" }
    (fun _ => Except.ok 0) rfl).2.2.2

/-- **C4**: a `std::exception` escaping an adapter is converted to a generic
`java/lang/Exception` carrying the original message and the adapter returns
a default-constructed wire result — unless a Java exception is already
pending, in which case the pending exception is left in place untouched. -/
theorem native_exception_translated_unless_pending
    (σ : Type) [Inhabited σ] (env : JNIEnvState) (what : String)
    (convert : Unit → Except String σ) :
    (env.pending = none →
      Adapter.invoke env (NativeOutcome.fail what) convert
        = ({ pending := some { id := 0, className := "java/lang/Exception", message := what } },
           (default : σ)))
    ∧ (∀ t : Throwable, env.pending = some t →
        Adapter.invoke env (NativeOutcome.fail what) convert = (env, (default : σ))) := by
  constructor
  · intro h
    simp [Adapter.invoke, exception_handler, h]
  · intro t h
    simp [Adapter.invoke, exception_handler, h]

/-- Witness for C4: translation with a clean slot, suppression with a
pending exception. -/
theorem native_exception_translated_unless_pending_witness :
    Adapter.invoke { pending := none } (NativeOutcome.fail "oops")
        (fun _ : Unit => Except.ok (0 : Int))
      = ({ pending := some { id := 0, className := "java/lang/Exception", message := "oops" } }, 0)
    ∧ Adapter.invoke { pending := some { id := 7, className := "E", message := "prior" } }
        (NativeOutcome.fail "oops") (fun _ : Unit => Except.ok (0 : Int))
      = ({ pending := some { id := 7, className := "E", message := "prior" } }, 0) :=
  ⟨(native_exception_translated_unless_pending Int { pending := none } "oops"
      (fun _ : Unit => Except.ok (0 : Int))).1 rfl,
   (native_exception_translated_unless_pending Int
      { pending := some { id := 7, className := "E", message := "prior" } } "oops"
      (fun _ : Unit => Except.ok (0 : Int))).2
      { id := 7, className := "E", message := "prior" } rfl⟩

/-- **C10**: marshalling a callable from native code to Java is
unconditionally unsupported: `java_value` throws for every function value,
so an adapter whose native call returns a `std::function` always surfaces a
generic Java exception with the fixed message instead of a callable. -/
theorem function_return_unsupported (φ : Type) (f : φ) (env : JNIEnvState) :
    functionArgJavaValue f = Except.error functionJavaValueMessage
    ∧ (env.pending = none →
        Adapter.invoke env (NativeOutcome.ok f) functionArgJavaValue
          = ({ pending := some { id := 0, className := "java/lang/Exception"
                                 message := functionJavaValueMessage } }, ())) := by
  constructor
  · rfl
  · intro h
    simp [Adapter.invoke, functionArgJavaValue, exception_handler, h]

/-- Witness for C10 at a concrete function value. -/
theorem function_return_unsupported_witness :
    Adapter.invoke { pending := none } (NativeOutcome.ok ()) functionArgJavaValue
      = ({ pending := some { id := 0, className := "java/lang/Exception"
                             message := functionJavaValueMessage } }, ()) :=
  (function_return_unsupported Unit () { pending := none }).2 rfl

theorem step_vmLoaded (s : EnvironmentState) (op : EnvOp) :
    (Environment.step s op).vmLoaded = s.vmLoaded := by
  cases op with
  | getEnvOp host =>
    cases h : s.env with
    | some e => simp [Environment.step, Environment.getEnv, h]
    | none => cases host <;> simp [Environment.step, Environment.getEnv, h]
  | setEnvOp e => rfl

theorem step_attached (s : EnvironmentState) (op : EnvOp) :
    (Environment.step s op).attached = (s.attached || stepSelfAttaches s op) := by
  cases op with
  | getEnvOp host =>
    cases h : s.env with
    | some e => cases host <;> simp [Environment.step, Environment.getEnv, stepSelfAttaches, h]
    | none => cases host <;> simp [Environment.step, Environment.getEnv, stepSelfAttaches, h]
  | setEnvOp e => simp [Environment.step, Environment.setEnv, stepSelfAttaches]

theorem step_inv (s : EnvironmentState) (op : EnvOp)
    (h : s.attached = true → s.env.isSome = true) :
    (Environment.step s op).attached = true → (Environment.step s op).env.isSome = true := by
  cases op with
  | getEnvOp host =>
    cases he : s.env with
    | some e => intro _; simp [Environment.step, Environment.getEnv, he]
    | none =>
      cases host with
      | alreadyAttached e => intro _; simp [Environment.step, Environment.getEnv, he]
      | detachedAttachOk e => intro _; simp [Environment.step, Environment.getEnv, he]
      | detachedAttachFail =>
        intro ha
        simp only [Environment.step, Environment.getEnv, he] at ha ⊢
        exact absurd (h ha) (by simp [he])
      | badVersion =>
        intro ha
        simp only [Environment.step, Environment.getEnv, he] at ha ⊢
        exact absurd (h ha) (by simp [he])
  | setEnvOp e => intro _; simp [Environment.step, Environment.setEnv]

theorem run_vmLoaded (ops : List EnvOp) :
    ∀ s : EnvironmentState, (Environment.run s ops).vmLoaded = s.vmLoaded := by
  induction ops with
  | nil => intro s; rfl
  | cons op rest ih =>
    intro s
    show (Environment.run (Environment.step s op) rest).vmLoaded = s.vmLoaded
    rw [ih (Environment.step s op), step_vmLoaded]

theorem run_attached (ops : List EnvOp) :
    ∀ s : EnvironmentState,
      (Environment.run s ops).attached = (s.attached || selfAttachOccurred s ops) := by
  induction ops with
  | nil => intro s; simp [Environment.run, selfAttachOccurred]
  | cons op rest ih =>
    intro s
    show (Environment.run (Environment.step s op) rest).attached = _
    rw [ih (Environment.step s op), step_attached]
    simp [selfAttachOccurred, Bool.or_assoc]

theorem run_inv (ops : List EnvOp) :
    ∀ s : EnvironmentState, (s.attached = true → s.env.isSome = true) →
      ((Environment.run s ops).attached = true → (Environment.run s ops).env.isSome = true) := by
  induction ops with
  | nil => intro s h; exact h
  | cons op rest ih =>
    intro s h
    exact ih (Environment.step s op) (step_inv s op h)

/-- **C9**: at thread termination, the `Environment` destructor detaches
the thread exactly when one of the thread's `getEnv` calls attached it (the
host reported the thread detached and `AttachCurrentThread` succeeded);
a thread whose environment came from the host — either because `GetEnv`
found it already attached, or via `setEnv` — is never detached by this
layer. -/
theorem environment_detaches_iff_self_attached (ops : List EnvOp) :
    Environment.dtorDetaches (Environment.run initialEnvState ops)
      = selfAttachOccurred initialEnvState ops := by
  have hA : (Environment.run initialEnvState ops).attached
      = selfAttachOccurred initialEnvState ops := by
    simpa [initialEnvState] using run_attached ops initialEnvState
  have hV : (Environment.run initialEnvState ops).vmLoaded = true := by
    simpa [initialEnvState] using run_vmLoaded ops initialEnvState
  have hI : (Environment.run initialEnvState ops).attached = true →
      (Environment.run initialEnvState ops).env.isSome = true :=
    run_inv ops initialEnvState (by simp [initialEnvState])
  cases hatt : (Environment.run initialEnvState ops).attached with
  | false =>
    rw [← hA, hatt]
    simp [Environment.dtorDetaches, hatt]
  | true =>
    rw [← hA, hatt]
    simp [Environment.dtorDetaches, hatt, hV, hI hatt]

/-- **C7**: signature derivation is canonical across callable shapes: the
free-function-pointer, instance-method, and const-qualified instance-method
specializations of `Function` all produce
`( <decayed parameter signatures> ) <return signature>`, with the receiver
type excluded from (and irrelevant to) the parameter list. -/
theorem function_signature_canonical (receiver receiver2 r : CppType) (args : List CppType) :
    freeFunctionSignature r args
        = "(" ++ String.join ((args.map decay).map typeSig) ++ ")" ++ typeSig r
    ∧ memberFunctionSignature receiver r args = freeFunctionSignature r args
    ∧ constMemberFunctionSignature receiver r args = freeFunctionSignature r args
    ∧ memberFunctionSignature receiver r args = memberFunctionSignature receiver2 r args :=
  ⟨rfl, rfl, rfl, rfl⟩

theorem count_flatten_replicate {α : Type} [DecidableEq α] (n : Nat) (l : List α) (c : α) :
    ((List.replicate n l).flatten).count c = n * l.count c := by
  induction n with
  | zero => simp
  | succ m ih =>
    simp [List.replicate_succ, List.count_append, ih, Nat.succ_mul, Nat.add_comm]

/-- **C8**: a `std::vector<T>` with a fixed-width numeric primitive element
type has the flat array wire signature `[` + element code and converts with
a single contiguous bulk copy and no per-element boxing, in both
directions; any other element type gets the generic `java/util/List` wire
representation, converting with exactly one box and one `add` call per
element outbound, and one `get` call and one unbox per element inbound. -/
theorem vector_wire_representation_dispatch (t : CppType) (len : Nat) :
    (isFundamentalArrayElement t = true →
      typeSig (CppType.vectorOf t) = "[" ++ typeSig t
      ∧ vectorJavaValueCalls t len = [JniCall.newPrimitiveArray len, JniCall.setArrayRegion len]
      ∧ JniCall.boxValue ∉ vectorJavaValueCalls t len
      ∧ vectorNativeValueCalls t len = [JniCall.getArrayLength, JniCall.getArrayRegion len]
      ∧ JniCall.unboxValue ∉ vectorNativeValueCalls t len)
    ∧ (isFundamentalArrayElement t = false →
      typeSig (CppType.vectorOf t) = "Ljava/util/List;"
      ∧ (vectorJavaValueCalls t len).count JniCall.boxValue = len
      ∧ (vectorJavaValueCalls t len).count (JniCall.callMethod "add") = len
      ∧ (vectorNativeValueCalls t len).count (JniCall.callMethod "get") = len
      ∧ (vectorNativeValueCalls t len).count JniCall.unboxValue = len) := by
  constructor
  · intro h
    refine ⟨?_, ?_, ?_, ?_, ?_⟩ <;>
      simp [typeSig, vectorJavaValueCalls, vectorNativeValueCalls, h]
  · intro h
    refine ⟨?_, ?_, ?_, ?_, ?_⟩ <;>
      simp [typeSig, vectorJavaValueCalls, vectorNativeValueCalls, h,
        List.count_cons, count_flatten_replicate]

/-- Witness for C8: `std::vector<int>` is a flat `[I` array;
`std::vector<std::string>` goes element by element through a Java `List`. -/
theorem vector_wire_representation_dispatch_witness :
    typeSig (CppType.vectorOf CppType.intT) = "[" ++ typeSig CppType.intT
    ∧ (vectorJavaValueCalls CppType.stringT 3).count JniCall.boxValue = 3 :=
  ⟨((vector_wire_representation_dispatch CppType.intT 3).1 rfl).1,
   ((vector_wire_representation_dispatch CppType.stringT 3).2 rfl).2.1⟩

/-- **C6**: composite-by-value conversion touches exactly the registered
fields, in registration order: an unregistered field is never written (it
keeps the target side's default in both directions) and never read (the
conversion result does not depend on the source object's value for it),
while every registered field is copied from the source object. -/
theorem data_class_unregistered_field_untouched
    (bindings : List String) (javaDefault nativeDefault : String → Int)
    (native javaObj : String → Int) (f : String) :
    (f ∉ bindings →
      dataClassJavaValue bindings javaDefault native f = javaDefault f
      ∧ dataClassNativeValue bindings nativeDefault javaObj f = nativeDefault f)
    ∧ (f ∈ bindings →
      dataClassJavaValue bindings javaDefault native f = native f
      ∧ dataClassNativeValue bindings nativeDefault javaObj f = javaObj f)
    ∧ (∀ native2 : String → Int, (∀ b ∈ bindings, native b = native2 b) →
        dataClassJavaValue bindings javaDefault native
          = dataClassJavaValue bindings javaDefault native2) := by
  refine ⟨?_, ?_, ?_⟩
  · intro h
    constructor <;>
      simp [dataClassJavaValue, dataClassNativeValue, foldl_update_apply, h]
  · intro h
    constructor <;>
      simp [dataClassJavaValue, dataClassNativeValue, foldl_update_apply, h]
  · intro native2 hagree
    funext g
    by_cases hg : g ∈ bindings
    · simp [dataClassJavaValue, foldl_update_apply, hg, hagree g hg]
    · simp [dataClassJavaValue, foldl_update_apply, hg]

/-- Witness for C6: with fields `b` and `s` registered, the unregistered
field `str` keeps its Java-side default while `b` is copied. -/
theorem data_class_unregistered_field_untouched_witness :
    dataClassJavaValue ["b", "s"] (fun _ => 0) (fun _ => 42) "str" = 0
    ∧ dataClassJavaValue ["b", "s"] (fun _ => 0) (fun _ => 42) "b" = 42 :=
  ⟨((data_class_unregistered_field_untouched ["b", "s"] (fun _ => 0) (fun _ => 0)
      (fun _ => 42) (fun _ => 7) "str").1 (by decide)).1,
   ((data_class_unregistered_field_untouched ["b", "s"] (fun _ => 0) (fun _ => 0)
      (fun _ => 42) (fun _ => 7) "b").2.1 (by decide)).1⟩

theorem takeWhile_ne_zero_eq (s : List Nat) (h : ∀ c ∈ s, c ≠ 0) :
    (s.takeWhile fun c => c ≠ 0) = s := by
  induction s with
  | nil => rfl
  | cons c t ih =>
    have hc : c ≠ 0 := h c (List.mem_cons_self c t)
    simp [List.takeWhile_cons, hc]
    intro x hx
    exact h x (List.mem_cons_of_mem _ hx)

/-- **C5**: round-trip identity of value conversion: for primitives,
strings (without embedded NUL bytes, which `NewStringUTF(value.data())`
cannot carry), ordered sequences (generic and flat), sets (ordered and
hash-based), and maps, converting outbound to the wire representation and
back inbound yields the original value, order preserved for ordered
collections, with empty values included. -/
theorem value_conversion_round_trip (α β : Type)
    (elemJava : α → β) (elemNative : β → α)
    (hElem : ∀ x : α, elemNative (elemJava x) = x) :
    (∀ b : Bool, boolNativeValue (boolJavaValue b) = b)
    ∧ (∀ x : Int, intNativeValue (intJavaValue x) = x)
    ∧ (∀ s : List Nat, (∀ c ∈ s, c ≠ 0) → stringNativeValue (stringJavaValue s) = s)
    ∧ (∀ l : List α, listNativeValue elemNative (listJavaValue elemJava l) = l)
    ∧ (∀ v : List Int, primitiveArrayNativeValue (primitiveArrayJavaValue v) = v)
    ∧ (∀ s : List Int, s.Pairwise (· < ·) → orderedSetNativeValue (setJavaValue s) = s)
    ∧ (∀ s : List Int, s.Nodup → unorderedSetNativeValue (setJavaValue s) = s)
    ∧ (∀ m : List (Int × α), (m.map Prod.fst).Pairwise (· < ·) →
        orderedMapNativeValue elemNative (mapJavaValue elemJava m) = m) := by
  refine ⟨?_, ?_, ?_, ?_, ?_, ?_, ?_, ?_⟩
  · intro b
    cases b <;> rfl
  · intro x
    rfl
  · intro s h
    have hs : stringJavaValue s = s := takeWhile_ne_zero_eq s h
    rw [hs]
    cases s with
    | nil => rfl
    | cons c t => simp [stringNativeValue]
  · intro l
    simp only [listJavaValue, listNativeValue, List.map_map]
    have h1 : List.map (elemNative ∘ elemJava) l = List.map id l :=
      List.map_congr_left fun a _ => hElem a
    rw [h1, List.map_id]
  · intro v
    rfl
  · intro s hs
    have hnd : s.Nodup := hs.imp fun h => ne_of_lt h
    rw [setJavaValue_of_nodup s hnd]
    have h1 := foldl_stdSetInsert_sorted s [] (by simpa using hs)
    simpa [orderedSetNativeValue] using h1
  · intro s hnd
    rw [setJavaValue_of_nodup s hnd]
    have h1 := foldl_hashSetInsert_nodup s [] (by simpa using hnd)
    simpa [unorderedSetNativeValue] using h1
  · intro m hm
    have hknd : (m.map Prod.fst).Nodup := hm.imp fun h => ne_of_lt h
    have hjava : mapJavaValue elemJava m = m.map fun p => (p.1, elemJava p.2) := by
      have h1 : mapJavaValue elemJava m
          = (m.map fun p => (p.1, elemJava p.2)).foldl
              (fun acc p => javaMapPut acc p.1 p.2) [] := by
        rw [List.foldl_map]
        rfl
      rw [h1]
      have h2 := foldl_javaMapPut_nodup (m.map fun p => (p.1, elemJava p.2)) []
        (by simpa [List.map_map, Function.comp] using hknd)
      simpa using h2
    rw [hjava]
    have hback : orderedMapNativeValue elemNative (m.map fun p => (p.1, elemJava p.2))
        = m.foldl (fun acc p => stdMapAssign p.1 p.2 acc) [] := by
      unfold orderedMapNativeValue
      rw [List.foldl_map]
      congr 1
      funext acc p
      rw [hElem]
    rw [hback]
    have h3 := foldl_stdMapAssign_sorted m [] (by simpa using hm)
    simpa using h3

/-- Witness for C5: a concrete string, a concrete ordered map, and the
empty ordered set all survive the round trip. -/
theorem value_conversion_round_trip_witness :
    stringNativeValue (stringJavaValue [104, 105]) = [104, 105]
    ∧ orderedMapNativeValue (id : Int → Int) (mapJavaValue id [(1, 7), (2, 9), (5, 3)])
        = [(1, 7), (2, 9), (5, 3)]
    ∧ orderedSetNativeValue (setJavaValue []) = [] :=
  ⟨(value_conversion_round_trip Int Int id id fun _ => rfl).2.2.1 [104, 105] (by decide),
   (value_conversion_round_trip Int Int id id fun _ => rfl).2.2.2.2.2.2.2
      [(1, 7), (2, 9), (5, 3)] (by decide),
   (value_conversion_round_trip Int Int id id fun _ => rfl).2.2.2.2.2.1 [] (by decide)⟩

theorem registerClasses_spec (jni : JniLoadEnv) (regs : List (String × List FunctionBinding)) :
    ∀ acc : List (String × FunctionBinding),
      ∃ k, k ≤ regs.length
        ∧ (registerClasses jni regs acc).2 = acc ++ allNatives (regs.take k)
        ∧ ((registerClasses jni regs acc).1 = none → k = regs.length)
        ∧ (∀ rc : Int, (registerClasses jni regs acc).1 = some rc →
            rc = JNI_ERR ∨ ∃ c, rc = jni.registerNativesRc c ∧ rc ≠ JNI_OK) := by
  induction regs with
  | nil =>
    intro acc
    refine ⟨0, Nat.le_refl 0, by simp [registerClasses, allNatives], fun _ => rfl, ?_⟩
    intro rc hrc
    simp [registerClasses] at hrc
  | cons p rest ih =>
    obtain ⟨cls, bs⟩ := p
    intro acc
    by_cases hres : jni.resolvesClass cls
    · by_cases hok : jni.registerNativesRc cls = JNI_OK
      · obtain ⟨k, hk, hinst, hnone, hsome⟩ := ih (acc ++ bs.map fun b => (cls, b))
        have hred : registerClasses jni ((cls, bs) :: rest) acc
            = registerClasses jni rest (acc ++ bs.map fun b => (cls, b)) := by
          simp [registerClasses, hres, hok]
        refine ⟨k + 1, Nat.succ_le_succ hk, ?_, ?_, ?_⟩
        · rw [hred, hinst]
          simp [allNatives, List.take_succ_cons, List.append_assoc]
        · rw [hred]
          intro h
          simp [hnone h]
        · rw [hred]
          exact hsome
      · have hred : registerClasses jni ((cls, bs) :: rest) acc
            = (some (jni.registerNativesRc cls), acc) := by
          simp [registerClasses, hres, hok]
        refine ⟨0, Nat.zero_le _, ?_, ?_, ?_⟩
        · rw [hred]
          simp [allNatives]
        · rw [hred]
          intro h
          simp at h
        · rw [hred]
          intro rc hrc
          simp at hrc
          subst hrc
          exact Or.inr ⟨cls, rfl, hok⟩
    · have hred : registerClasses jni ((cls, bs) :: rest) acc = (some JNI_ERR, acc) := by
        simp [registerClasses, hres]
      refine ⟨0, Nat.zero_le _, ?_, ?_, ?_⟩
      · rw [hred]
        simp [allNatives]
      · rw [hred]
        intro h
        simp at h
      · rw [hred]
        intro rc hrc
        simp at hrc
        subst hrc
        exact Or.inl rfl

theorem checkFields_err (jni : JniLoadEnv) :
    ∀ regs : List (String × List FieldSpec), ∀ rc : Int,
      checkFields jni regs = some rc → rc = JNI_ERR := by
  intro regs
  induction regs with
  | nil =>
    intro rc h
    simp [checkFields] at h
  | cons p rest ih =>
    obtain ⟨cls, fs⟩ := p
    intro rc h
    by_cases hres : jni.resolvesClass cls
    · by_cases hall : fs.all fun f => jni.hasField cls f
      · rw [show checkFields jni ((cls, fs) :: rest) = checkFields jni rest from by
          simp [checkFields, hres, hall]] at h
        exact ih rc h
      · rw [show checkFields jni ((cls, fs) :: rest) = some JNI_ERR from by
          simp [checkFields, hres, hall]] at h
        simp at h
        exact h.symm
    · rw [show checkFields jni ((cls, fs) :: rest) = some JNI_ERR from by
        simp [checkFields, hres]] at h
      simp at h
      exact h.symm

/-- A registry of two native classes, each with one binding, as produced by
two `native_class` registrations. -/
def twoClassRegs : List (String × List FunctionBinding) :=
  [("com/kheiron/ktbind/A",
      [{ name := "f", signature := "()V", is_member := false, entryPoint := 1 }]),
   ("com/kheiron/ktbind/B",
      [{ name := "g", signature := "()V", is_member := false, entryPoint := 2 }])]

/-- A JNI load environment in which class `A` resolves and registers fine
but class `B` is missing. -/
def classBMissingJni : JniLoadEnv :=
  { getEnvRc := JNI_OK
    resolvesClass := fun c => c == "com/kheiron/ktbind/A"
    registerNativesRc := fun _ => JNI_OK
    pendingAfterRegistration := false
    hasField := fun _ _ => true }

/-- A JNI load environment in which everything resolves. -/
def allOkJni : JniLoadEnv :=
  { getEnvRc := JNI_OK
    resolvesClass := fun _ => true
    registerNativesRc := fun _ => JNI_OK
    pendingAfterRegistration := false
    hasField := fun _ _ => true }

/-- **C1** counterexample: with two registered classes where the second
fails to resolve, `java_initialization_impl` returns `JNI_ERR`, yet the
first class's natives remain installed — neither "full success" nor "no
bindings remain active" holds, so the load is not atomic-on-failure. -/
theorem java_initialization_not_atomic :
    ¬ (((java_initialization_impl classBMissingJni twoClassRegs []).1 = JNI_VERSION_1_6
        ∧ (java_initialization_impl classBMissingJni twoClassRegs []).2
            = allNatives twoClassRegs)
      ∨ (java_initialization_impl classBMissingJni twoClassRegs []).2 = []) := by
  decide

/-- **C1** (amended): either the load returns `JNI_VERSION_1_6` and every
registered `FunctionBinding` of every class is installed, or it returns a
failure code and exactly the bindings of the classes processed before the
failure remain installed (a prefix of the registration walk — no rollback
is performed). The side conditions say that `GetEnv` and `RegisterNatives`
return `JNI_OK` or a negative error code, as the JNI specification
guarantees. -/
theorem java_initialization_prefix_installed (jni : JniLoadEnv)
    (fnRegs : List (String × List FunctionBinding)) (fldRegs : List (String × List FieldSpec))
    (hGetEnv : jni.getEnvRc = JNI_OK ∨ jni.getEnvRc < 0)
    (hReg : ∀ c, jni.registerNativesRc c = JNI_OK ∨ jni.registerNativesRc c < 0) :
    ((java_initialization_impl jni fnRegs fldRegs).1 = JNI_VERSION_1_6 →
      (java_initialization_impl jni fnRegs fldRegs).2 = allNatives fnRegs)
    ∧ ∃ k, k ≤ fnRegs.length
        ∧ (java_initialization_impl jni fnRegs fldRegs).2 = allNatives (fnRegs.take k) := by
  by_cases hge : jni.getEnvRc = JNI_OK
  · obtain ⟨k, hk, hinst, hnone, hsome⟩ := registerClasses_spec jni fnRegs []
    rcases hrc : registerClasses jni fnRegs [] with ⟨res, installed⟩
    rw [hrc] at hinst hnone hsome
    cases res with
    | some rc =>
      have himpl : java_initialization_impl jni fnRegs fldRegs = (rc, installed) := by
        simp [java_initialization_impl, hge, hrc]
      constructor
      · intro hsucc
        exfalso
        have hrceq : rc = JNI_VERSION_1_6 := by rw [himpl] at hsucc; exact hsucc
        rcases hsome rc rfl with h1 | ⟨c, h2, h3⟩
        · rw [h1] at hrceq
          simp only [JNI_ERR, JNI_VERSION_1_6] at hrceq
          omega
        · rcases hReg c with h4 | h4
          · exact h3 (h2.trans h4)
          · rw [hrceq] at h2
            rw [← h2] at h4
            simp only [JNI_VERSION_1_6] at h4
            omega
      · exact ⟨k, hk, by rw [himpl]; simpa using hinst⟩
    | none =>
      have hkl : k = fnRegs.length := hnone rfl
      have hfull : installed = allNatives fnRegs := by
        simpa [hkl, List.take_length] using hinst
      have hpre : installed = allNatives (fnRegs.take k) := by
        rw [hkl, List.take_length]
        exact hfull
      by_cases hpend : jni.pendingAfterRegistration
      · have himpl : java_initialization_impl jni fnRegs fldRegs = (JNI_ERR, installed) := by
          simp [java_initialization_impl, hge, hrc, hpend]
        constructor
        · intro hsucc
          exfalso
          have hx : JNI_ERR = JNI_VERSION_1_6 := by rw [himpl] at hsucc; exact hsucc
          simp only [JNI_ERR, JNI_VERSION_1_6] at hx
          omega
        · exact ⟨k, hk, by rw [himpl]; exact hpre⟩
      · rcases hcf : checkFields jni fldRegs with _ | rc2
        · have himpl : java_initialization_impl jni fnRegs fldRegs
              = (JNI_VERSION_1_6, installed) := by
            simp [java_initialization_impl, hge, hrc, hpend, hcf]
          constructor
          · intro _
            rw [himpl]
            exact hfull
          · exact ⟨k, hk, by rw [himpl]; exact hpre⟩
        · have himpl : java_initialization_impl jni fnRegs fldRegs = (rc2, installed) := by
            simp [java_initialization_impl, hge, hrc, hpend, hcf]
          constructor
          · intro hsucc
            exfalso
            have hrceq : rc2 = JNI_VERSION_1_6 := by rw [himpl] at hsucc; exact hsucc
            have herr : rc2 = JNI_ERR := checkFields_err jni fldRegs rc2 hcf
            rw [herr] at hrceq
            simp only [JNI_ERR, JNI_VERSION_1_6] at hrceq
            omega
          · exact ⟨k, hk, by rw [himpl]; exact hpre⟩
  · have himpl : java_initialization_impl jni fnRegs fldRegs = (jni.getEnvRc, []) := by
      simp [java_initialization_impl, hge]
    constructor
    · intro hsucc
      exfalso
      have hx : jni.getEnvRc = JNI_VERSION_1_6 := by rw [himpl] at hsucc; exact hsucc
      rcases hGetEnv with h1 | h1
      · exact hge h1
      · rw [hx] at h1
        simp only [JNI_VERSION_1_6] at h1
        omega
    · exact ⟨0, Nat.zero_le _, by rw [himpl]; simp [allNatives]⟩

/-- Witness for the amended C1: when every class resolves, the load
installs all registered natives. -/
theorem java_initialization_prefix_installed_witness :
    (java_initialization_impl allOkJni twoClassRegs []).2 = allNatives twoClassRegs :=
  (java_initialization_prefix_installed allOkJni twoClassRegs []
      (Or.inl rfl) (fun _ => Or.inl rfl)).1 (by decide)

end Ktbind
